import Mathlib

/-!
Verification of the verification-gate script (`verify_gate/gate.py`) and the
validated lookup example (`src/python/good/good_example.py`).

The Python code is shallowly embedded: pure string/JSON manipulation becomes
Lean functions on `String`/`List Char`; the ambient effects (filesystem probes,
PATH lookup, subprocess runs, file writes, prints) become explicit environment
records passed in and outcome records returned.  Exceptions raised by the
Python code are modelled with `Except`.
-/

/-! ### Python string primitives

The gate only ever manipulates ASCII text, so the embeddings of `str.strip`
and `str.upper` below implement the ASCII fragment of the Python semantics
(Python additionally strips some rarer Unicode whitespace and upcases
non-ASCII letters; no string handled by the program is affected).
-/

/-- Characters removed by Python `str.strip()` (ASCII whitespace). -/
def pyIsSpace (c : Char) : Bool :=
  c = ' ' || c = '\t' || c = '\n' || c = '\r' || c = '\x0b' || c = '\x0c'

/-- Python `str.strip()`: drop leading and trailing whitespace. -/
def pyStrip (s : String) : String :=
  String.mk (((s.data.dropWhile pyIsSpace).reverse.dropWhile pyIsSpace).reverse)

/-- Python `str.upper()` on a single ASCII character. -/
def pyCharUpper (c : Char) : Char :=
  if 'a' ≤ c && c ≤ 'z' then Char.ofNat (c.toNat - 32) else c

/-- Python `str.upper()`. -/
def pyUpper (s : String) : String := String.mk (s.data.map pyCharUpper)

/-! ### `pathlib` fragment

`gate.py` uses `Path(t).is_file()`, `Path(t).is_dir()`, `Path(t).suffix`,
`sorted(Path(t).rglob("*.dfy"))` and `str(Path(t))`.  Paths are modelled as
plain strings (`str(Path(t))` is taken as `t`; `PurePath`'s cosmetic
normalisation of inputs such as `"a//b"` is not modelled, no claim depends on
it).  The filesystem itself is an environment record `FS` below. -/

/-- `Path(s).name`: the final path component (text after the last slash). -/
def pyName (s : String) : String :=
  String.mk ((s.data.reverse.takeWhile (fun c => c ≠ '/')).reverse)

/-- `Path(s).suffix`, following the `pathlib` implementation: with
`name = Path(s).name` and `i = name.rfind('.')`, the suffix is `name[i:]`
when `0 < i < len(name) - 1` and `''` otherwise. -/
def pySuffix (s : String) : String :=
  let rev := (pyName s).data.reverse
  let ext := rev.takeWhile (fun c => c ≠ '.')
  if ext.length = rev.length then ""          -- no dot in the name
  else if ext.length = 0 then ""              -- dot is the last character
  else if rev.length - ext.length - 1 = 0 then ""  -- dot is the first character
  else String.mk ('.' :: ext.reverse)

/-- The filesystem as seen by `gate.py`.  `rglobDfy d` is the list produced by
`Path(d).rglob("*.dfy")` in directory-iteration order (the code sorts it
itself).  The invariant records the glob contract: every reported path has a
final component matching `*.dfy`, hence ends in `".dfy"`. -/
structure FS where
  isFile : String → Bool
  isDir : String → Bool
  rglobDfy : String → List String
  rglob_dfy : ∀ d f, f ∈ rglobDfy d → ".dfy".data <:+ f.data

/-! ### JSON values and `json.loads`

`run_semgrep` feeds the scanner's stdout to `json.loads`.  The embedding
parses the standard JSON grammar into the `Json` type below.  Numbers are kept
as their source literal (the program never reads a numeric value).  Documented
divergences from CPython's `json` module, none of which any claim touches:
surrogate pairs in `\uXXXX` escapes are not combined, and the nonstandard
`NaN`/`Infinity` literals accepted by default by CPython are rejected. -/

inductive Json where
  | null
  | bool (b : Bool)
  | num (s : String)
  | str (s : String)
  | arr (xs : List Json)
  | obj (kvs : List (String × Json))

/-- Combine one parsed object member with the `dict` built from the members to
its right.  Python `dict` semantics for duplicate keys in `json.loads`: the
key keeps its first-seen position but ends up with its last-seen value. -/
def dictAddFirst (k : String) (v : Json) (rest : List (String × Json)) :
    List (String × Json) :=
  match List.lookup k rest with
  | some v2 => (k, v2) :: rest.filter (fun kv => kv.1 ≠ k)
  | none => (k, v) :: rest

/-- JSON insignificant whitespace. -/
def skipWs : List Char → List Char
  | [] => []
  | c :: cs =>
      if c = ' ' || c = '\t' || c = '\n' || c = '\r' then skipWs cs else c :: cs

/-- Value of a hex digit (code points 48-57 are `0`-`9`, 97-102 are `a`-`f`,
65-70 are `A`-`F`). -/
def hexVal (c : Char) : Option Nat :=
  let n := c.toNat
  if 48 ≤ n ∧ n ≤ 57 then some (n - 48)
  else if 97 ≤ n ∧ n ≤ 102 then some (n - 87)
  else if 65 ≤ n ∧ n ≤ 70 then some (n - 55)
  else none

/-- Body of a JSON string literal (after the opening quote): returns the
decoded characters and the input following the closing quote. -/
def parseStrChars : Nat → List Char → Option (List Char × List Char)
  | 0, _ => none
  | _ + 1, [] => none
  | fuel + 1, c :: cs =>
      if c = '"' then some ([], cs)
      else if c = '\\' then
        match cs with
        | [] => none
        | e :: cs2 =>
            let esc : Option (Char × List Char) :=
              if e = '"' then some ('"', cs2)
              else if e = '\\' then some ('\\', cs2)
              else if e = '/' then some ('/', cs2)
              else if e = 'b' then some ('\x08', cs2)
              else if e = 'f' then some ('\x0c', cs2)
              else if e = 'n' then some ('\n', cs2)
              else if e = 'r' then some ('\r', cs2)
              else if e = 't' then some ('\t', cs2)
              else if e = 'u' then
                match cs2 with
                | h1 :: h2 :: h3 :: h4 :: cs3 =>
                    match hexVal h1, hexVal h2, hexVal h3, hexVal h4 with
                    | some a, some b, some c2, some d =>
                        some (Char.ofNat (((a * 16 + b) * 16 + c2) * 16 + d), cs3)
                    | _, _, _, _ => none
                | _ => none
              else none
            match esc with
            | some (ch, rest) =>
                (parseStrChars fuel rest).map (fun p => (ch :: p.1, p.2))
            | none => none
      else if c.toNat < 0x20 then none     -- raw control characters are invalid
      else (parseStrChars fuel cs).map (fun p => (c :: p.1, p.2))

/-- A JSON number literal: `-? (0 | [1-9][0-9]*) frac? exp?`. -/
def parseNumber (cs0 : List Char) : Option (String × List Char) :=
  let signed : List Char × List Char :=
    match cs0 with
    | '-' :: r => (['-'], r)
    | _ => ([], cs0)
  match signed.2 with
  | [] => none
  | c :: _ =>
      if ¬ c.isDigit then none
      else
        let ip : List Char × List Char :=
          match signed.2 with
          | '0' :: r => (['0'], r)
          | l => l.span Char.isDigit
        let fp : List Char × List Char :=
          match ip.2 with
          | '.' :: r =>
              let ds := r.span Char.isDigit
              if ds.1 = [] then ([], ip.2) else ('.' :: ds.1, ds.2)
          | _ => ([], ip.2)
        -- a dot not followed by a digit is not part of the number; JSON then
        -- fails on the leftover, matching CPython
        let ep : List Char × List Char :=
          match fp.2 with
          | e :: r =>
              if e = 'e' || e = 'E' then
                let sr : List Char × List Char :=
                  match r with
                  | s :: r2 => if s = '+' || s = '-' then ([s], r2) else ([], r)
                  | [] => ([], r)
                let ds := sr.2.span Char.isDigit
                if ds.1 = [] then ([], fp.2) else (e :: (sr.1 ++ ds.1), ds.2)
              else ([], fp.2)
          | [] => ([], fp.2)
        some (String.mk (signed.1 ++ ip.1 ++ fp.1 ++ ep.1), ep.2)

mutual

/-- One JSON value, at the head of the input (whitespace already skipped). -/
def parseValue : Nat → List Char → Option (Json × List Char)
  | 0, _ => none
  | fuel + 1, cs =>
      match cs with
      | [] => none
      | 'n' :: 'u' :: 'l' :: 'l' :: r => some (.null, r)
      | 't' :: 'r' :: 'u' :: 'e' :: r => some (.bool true, r)
      | 'f' :: 'a' :: 'l' :: 's' :: 'e' :: r => some (.bool false, r)
      | '"' :: r =>
          (parseStrChars (r.length + 1) r).map (fun p => (.str (String.mk p.1), p.2))
      | '[' :: r =>
          match skipWs r with
          | ']' :: r2 => some (.arr [], r2)
          | r2 => (parseElems fuel r2).map (fun p => (.arr p.1, p.2))
      | '\x7b' :: r =>
          match skipWs r with
          | '\x7d' :: r2 => some (.obj [], r2)
          | r2 => (parseMembers fuel r2).map (fun p => (.obj p.1, p.2))
      | _ => (parseNumber cs).map (fun p => (.num p.1, p.2))

/-- Array elements from the first element on; consumes the closing bracket. -/
def parseElems : Nat → List Char → Option (List Json × List Char)
  | 0, _ => none
  | fuel + 1, cs => do
      let (v, cs1) ← parseValue fuel cs
      match skipWs cs1 with
      | ',' :: r => (parseElems fuel (skipWs r)).map (fun p => (v :: p.1, p.2))
      | ']' :: r => some ([v], r)
      | _ => none

/-- Object members from the first key on; consumes the closing brace. -/
def parseMembers : Nat → List Char → Option (List (String × Json) × List Char)
  | 0, _ => none
  | fuel + 1, cs =>
      match cs with
      | '"' :: r => do
          let (kcs, cs1) ← parseStrChars (r.length + 1) r
          match skipWs cs1 with
          | ':' :: r2 => do
              let (v, cs2) ← parseValue fuel (skipWs r2)
              match skipWs cs2 with
              | ',' :: r3 =>
                  (parseMembers fuel (skipWs r3)).map
                    (fun p => (dictAddFirst (String.mk kcs) v p.1, p.2))
              | '\x7d' :: r3 => some ([(String.mk kcs, v)], r3)
              | _ => none
          | _ => none
      | _ => none

end

/-- `json.loads`: parse a complete JSON document, rejecting trailing data.
`none` models `json.JSONDecodeError`. -/
def parseJson (s : String) : Option Json :=
  match parseValue (s.length + 1) (skipWs s.data) with
  | some (v, rest) => if skipWs rest = [] then some v else none
  | none => none

/-! ### Python value helpers used by `run_semgrep`

`run_semgrep` evaluates `(r.get("extra", {}) or {}).get("severity", "")` and
`str(sev).upper() == "ERROR"` on arbitrary parsed JSON, and iterates over
`data.get("results", [])`.  The helpers below model the relevant Python
operations on `Json` values; operations that raise in Python (attribute access
on a non-dict, iterating a non-iterable) are modelled with `Except`. -/

/-- Python truthiness of a JSON-decoded value (`bool(v)`). -/
def jsonFalsy : Json → Bool
  | .null => true
  | .bool b => !b
  | .num s =>
      -- a JSON number is falsy exactly when its value is zero, i.e. every
      -- digit of its mantissa is 0 (the exponent cannot rescue a zero)
      let cs := match s.data with | '-' :: r => r | cs => cs
      (cs.takeWhile (fun c => c ≠ 'e' && c ≠ 'E')).all (fun c => c = '0' || c = '.')
  | .str s => s.data.isEmpty
  | .arr xs => xs.isEmpty
  | .obj kvs => kvs.isEmpty

/-- Python `v.get(k, default)`: `AttributeError` unless `v` is a dict. -/
def pyDictGet (v : Json) (k : String) (default : Json) : Except String Json :=
  match v with
  | .obj kvs => .ok ((List.lookup k kvs).getD default)
  | _ => .error "AttributeError: no attribute get"

/-- Python iteration (`for r in v`): lists yield their elements, strings their
one-character substrings, dicts their keys; anything else raises `TypeError`. -/
def pyIter : Json → Except String (List Json)
  | .arr xs => .ok xs
  | .str s => .ok (s.data.map (fun c => .str (String.mk [c])))
  | .obj kvs => .ok (kvs.map (fun kv => .str kv.1))
  | _ => .error "TypeError: not iterable"

mutual

/-- Python `repr` of a JSON-decoded value (enough of it for `str(sev)`:
exact for `None`/booleans/strings/containers up to quote escaping; numbers are
rendered as their JSON literal rather than re-formatted). -/
def pyRepr : Json → String
  | .null => "None"
  | .bool true => "True"
  | .bool false => "False"
  | .num s => s
  | .str s => "\x27" ++ s ++ "\x27"
  | .arr xs => "[" ++ String.intercalate ", " (pyReprList xs) ++ "]"
  | .obj kvs => "\x7b" ++ String.intercalate ", " (pyReprKVs kvs) ++ "\x7d"

def pyReprList : List Json → List String
  | [] => []
  | x :: xs => pyRepr x :: pyReprList xs

def pyReprKVs : List (String × Json) → List String
  | [] => []
  | (k, v) :: kvs => ("\x27" ++ k ++ "\x27: " ++ pyRepr v) :: pyReprKVs kvs

end

/-- Python `str(v)` of a JSON-decoded value. -/
def pyStr : Json → String
  | .str s => s
  | v => pyRepr v

/-! ### `gate.py` configuration constants -/

def DAFNY_TARGETS : List String := ["check.dfy", "specs/dafny"]

def SEMGRP_CONFIG : String := "semgrep/semgrep.yml"

def DAFNY_LOG : String := "artifacts/dafny.log"

def SEMGRP_JSON : String := "artifacts/semgrep.json"

/-! ### Target discovery (`_collect_dafny_files`) -/

/-- Python string `<` (code-point lexicographic), on the character lists. -/
def charListLt : List Char → List Char → Bool
  | [], [] => false
  | [], _ :: _ => true
  | _ :: _, [] => false
  | a :: as, b :: bs => if a = b then charListLt as bs else decide (a < b)

/-- Split a path string at `/`, accumulating the current component in
reverse; `splitSlash [] s.data` is the component list of `s`. -/
def splitSlash : List Char → List Char → List String
  | acc, [] => [String.mk acc.reverse]
  | acc, c :: cs =>
      if c = '/' then String.mk acc.reverse :: splitSlash [] cs
      else splitSlash (c :: acc) cs

/-- `PurePath.parts` of the relative paths `rglob` yields: the components of
the path.  (The special leading part pathlib gives an absolute path is not
modelled; it orders consistently since it is shared by all absolute paths.) -/
def pathParts (s : String) : List String := splitSlash [] s.data

/-- Python `<=` on component tuples: lexicographic over the part lists, each
part compared as a string by code points. -/
def partsLe : List String → List String → Bool
  | [], _ => true
  | _ :: _, [] => false
  | a :: as, b :: bs => if a = b then partsLe as bs else charListLt a.data b.data

/-- The order in which Python `sorted` ranks `Path` objects: pathlib compares
paths by their component sequences (`_parts_normcase`), not by the raw path
string — e.g. `specs/dafny/a/c.dfy` sorts before `specs/dafny/a.b/x.dfy`
because the part `a` precedes the part `a.b`, although as whole strings the
order is the opposite (`.` precedes `/` in code points). -/
def pathLe (a b : String) : Bool := partsLe (pathParts a) (pathParts b)

/-- Python `sorted(p.rglob("*.dfy"))`: sort the reported paths in pathlib
order. -/
def sortedPaths (l : List String) : List String :=
  l.mergeSort pathLe

/-- The contribution of one configured target `t` to the `files` list:
`t` itself when it is a file with suffix `.dfy`, else the sorted recursive
glob when it is a directory, else nothing. -/
def resolveTarget (fs : FS) (t : String) : List String :=
  if fs.isFile t && pySuffix t = ".dfy" then [t]
  else if fs.isDir t then sortedPaths (fs.rglobDfy t)
  else []

/-- The deduplication loop of `_collect_dafny_files`: keep each path the first
time it is seen (`seen` is the membership set built so far). -/
def dedupLoop (seen : List String) : List String → List String
  | [] => []
  | f :: fsr =>
      if f ∈ seen then dedupLoop seen fsr else f :: dedupLoop (f :: seen) fsr

/-- `_collect_dafny_files(targets)`. -/
def collect_dafny_files (fs : FS) (targets : List String) : List String :=
  dedupLoop [] (targets.flatMap (resolveTarget fs))

/-! ### `run_dafny` -/

/-- Captured result of one completed `subprocess.run`. -/
structure ProcResult where
  returncode : Int
  stdout : String
  stderr : String
deriving DecidableEq

/-- Ambient effects consumed by `run_dafny`: the filesystem, whether
`shutil.which("dafny")` finds the binary, and the two subprocess results
(`dafny --version`, `dafny verify <files>`). -/
structure DafnyEnv where
  fs : FS
  dafnyOnPath : Bool
  verProc : ProcResult
  verifyProc : List String → ProcResult

/-- Observable outcome of `run_dafny`: the returned boolean, whether the PATH
was consulted, the argument vectors of the subprocesses that were run, the
text written to `artifacts/dafny.log` (if any), and the lines printed to
stdout and stderr.  (`ARTIFACTS_DIR.mkdir` is unconditional and not an
observable the claims mention, so it is not recorded.) -/
structure DafnyOutcome where
  ok : Bool
  whichChecked : Bool
  calls : List (List String)
  log : Option String
  stdoutMsgs : List String
  stderrMsgs : List String

/-- The guidance message printed and logged when `dafny` is not on the PATH
(the parenthesised adjacent string literals of the source, concatenated). -/
def dafnyNotFoundMsg : String :=
  "[GATE] dafny not found on PATH.\n" ++
  "Install Dafny and ensure the \x27dafny\x27 command is on your PATH.\n\n" ++
  "Common install options:\n" ++
  "- Homebrew (if available): brew install dafny\n" ++
  "- .NET global tool: dotnet tool install -g dafny\n" ++
  "  then add to PATH: export PATH=\"$PATH:$HOME/.dotnet/tools\"\n" ++
  "- Download a release: https://github.com/dafny-lang/dafny/releases\n\n" ++
  "After installing, verify with: dafny --version\n"

/-- `run_dafny()`. -/
def run_dafny (env : DafnyEnv) : DafnyOutcome :=
  let dfy_files := collect_dafny_files env.fs DAFNY_TARGETS
  if dfy_files.isEmpty then
    { ok := true, whichChecked := false, calls := [],
      log := some "[GATE] No Dafny files found. Skipped.\n",
      stdoutMsgs := ["[GATE] No Dafny files found. Skipping Dafny."],
      stderrMsgs := [] }
  else if !env.dafnyOnPath then
    { ok := false, whichChecked := true, calls := [],
      log := some (dafnyNotFoundMsg ++ "\n"),
      stdoutMsgs := [], stderrMsgs := [dafnyNotFoundMsg] }
  else
    let ver := env.verProc
    let verText := if pyStrip ver.stdout ≠ "" then pyStrip ver.stdout
                   else pyStrip ver.stderr
    let header := "[GATE] Dafny version:\n" ++ verText ++ "\n\n"
    let cmd := ["dafny", "verify"] ++ dfy_files
    let proc := env.verifyProc dfy_files
    let log_text := header
      ++ "[GATE] Dafny command:\n" ++ String.intercalate " " cmd ++ "\n\n"
      ++ "[GATE] Dafny stdout:\n" ++ proc.stdout ++ "\n"
      ++ "[GATE] Dafny stderr:\n" ++ proc.stderr ++ "\n"
    if proc.returncode ≠ 0 then
      { ok := false, whichChecked := true,
        calls := [["dafny", "--version"], cmd], log := some log_text,
        stdoutMsgs := [pyStrip header],
        stderrMsgs := ["[GATE] Dafny FAIL (return code "
          ++ toString proc.returncode ++ "). See " ++ DAFNY_LOG] }
    else
      { ok := true, whichChecked := true,
        calls := [["dafny", "--version"], cmd], log := some log_text,
        stdoutMsgs := [pyStrip header, "[GATE] Dafny PASS"], stderrMsgs := [] }

/-! ### `run_semgrep` -/

/-- Ambient effects consumed by `run_semgrep`: `scan = none` models the
`FileNotFoundError` raised when the `semgrep` binary is absent, `scan = some
proc` the completed `semgrep scan --config semgrep/semgrep.yml --json` run. -/
structure SemgrepEnv where
  scan : Option ProcResult

/-- Observable outcome of `run_semgrep`: the returned `(ok, error_count)`
pair, the text written to `artifacts/semgrep.json` (if any), and the lines
printed to stdout and stderr. -/
structure SemgrepOutcome where
  ok : Bool
  error_count : Nat
  jsonArtifact : Option String
  stdoutMsgs : List String
  stderrMsgs : List String

/-- The body of the severity-counting loop:
`sev = (r.get("extra", {}) or {}).get("severity", "")`. -/
def getSeverity (r : Json) : Except String Json :=
  match pyDictGet r "extra" (Json.obj []) with
  | .error e => .error e
  | .ok extra =>
      let extra := if jsonFalsy extra then Json.obj [] else extra
      pyDictGet extra "severity" (Json.str "")

/-- The `error_count` accumulated over `results`; an exception raised while
reading a record's severity propagates. -/
def countErrors : List Json → Except String Nat
  | [] => .ok 0
  | r :: rs =>
      match getSeverity r with
      | .error e => .error e
      | .ok sev =>
          match countErrors rs with
          | .error e => .error e
          | .ok n => .ok (if pyUpper (pyStr sev) = "ERROR" then n + 1 else n)

/-- `run_semgrep()`.  A `.error` value models an uncaught Python exception
escaping the function (in that case the process dies with a traceback; note
that `artifacts/semgrep.json` has by then already been written, an effect the
`.error` value does not carry). -/
def run_semgrep (env : SemgrepEnv) : Except String SemgrepOutcome :=
  match env.scan with
  | none =>
      .ok { ok := false, error_count := 0, jsonArtifact := none,
            stdoutMsgs := [],
            stderrMsgs := ["[GATE] semgrep not found on PATH."] }
  | some proc =>
      let stdout := pyStrip proc.stdout
      let stderr := pyStrip proc.stderr
      if stdout = "" then
        .ok { ok := false, error_count := 0, jsonArtifact := none,
              stdoutMsgs := [],
              stderrMsgs := ["[GATE] Semgrep produced no JSON output."]
                ++ (if stderr ≠ "" then [stderr] else []) }
      else
        match parseJson stdout with
        | none =>
            .ok { ok := false, error_count := 0, jsonArtifact := some stdout,
                  stdoutMsgs := [],
                  stderrMsgs := ["[GATE] Semgrep output was not valid JSON."]
                    ++ (if stderr ≠ "" then [stderr] else []) }
        | some data =>
            match pyDictGet data "results" (Json.arr []) with
            | .error e => .error e
            | .ok resultsJ =>
                match pyIter resultsJ with
                | .error e => .error e
                | .ok results =>
                    match countErrors results with
                    | .error e => .error e
                    | .ok error_count =>
                        .ok { ok := true, error_count := error_count,
                              jsonArtifact := some stdout,
                              stdoutMsgs := ["[GATE] Semgrep findings: "
                                ++ toString results.length ++ " total, "
                                ++ toString error_count ++ " ERROR"],
                              stderrMsgs :=
                                if proc.returncode ≠ 0 ∧ stderr ≠ "" then
                                  ["[GATE] Semgrep stderr:", stderr]
                                else [] }

/-! ### `main` -/

structure GateEnv where
  dafny : DafnyEnv
  semgrep : SemgrepEnv

/-- Observable outcome of `main`: its return value (the process exit code)
and the banner lines it prints itself. -/
structure GateRun where
  exit : Nat
  stdoutMsgs : List String
  stderrMsgs : List String

/-- `main()` (named `gateMain` here because Lean reserves `main` for
executable entry points). -/
def gateMain (env : GateEnv) : Except String GateRun :=
  let overall_ok := true
  let dafny_ok := (run_dafny env.dafny).ok
  let overall_ok := if !dafny_ok then false else overall_ok
  match run_semgrep env.semgrep with
  | .error e => .error e
  | .ok sres =>
      let overall_ok :=
        if !sres.ok then false
        else if sres.error_count > 0 then false
        else overall_ok
      if overall_ok then
        .ok { exit := 0, stdoutMsgs := ["[GATE] PASS"], stderrMsgs := [] }
      else
        .ok { exit := 1, stdoutMsgs := [], stderrMsgs := ["[GATE] FAIL"] }

/-! ### The validated lookup (`good_example.py`) -/

/-- An arbitrary Python value handed to `validate_username`: either a `str`
or some value of another type (the code only ever queries `isinstance(·,
str)`, so all non-strings behave alike). -/
inductive PyVal where
  | pystr (s : String)
  | nonString

/-- The compiled form of `USERNAME_RE = re.compile(r"^[a-zA-Z0-9_]\x7b3,20\x7d$")`
used with `fullmatch`: between 3 and 20 characters, each alphanumeric ASCII or
underscore. -/
def usernameChar (c : Char) : Bool :=
  ('a' ≤ c && c ≤ 'z') || ('A' ≤ c && c ≤ 'Z') || ('0' ≤ c && c ≤ '9') || c = '_'

def USERNAME_RE_fullmatch (s : String) : Bool :=
  3 ≤ s.length && s.length ≤ 20 && s.data.all usernameChar

/-- `validate_username`; `.error` models the raised `ValueError`. -/
def validate_username : PyVal → Except String String
  | .nonString => .error "Invalid type"
  | .pystr username =>
      let username := pyStrip username
      if USERNAME_RE_fullmatch username then .ok username
      else .error "Invalid username format"

/-- One row of the `users` table. -/
structure Row where
  id : Int
  username : String

/-- One `cursor.execute` call: the SQL text and the bound parameter tuple. -/
structure QueryCall where
  sql : String
  params : List String
deriving DecidableEq

/-- The (fixed) query text of `get_user_by_username`. -/
def usersQuerySql : String := "SELECT id, username FROM users WHERE username = ?"

/-- Result of `get_user_by_username` together with the queries it executed. -/
structure LookupResult where
  queries : List QueryCall
  row : Option Row

/-- `get_user_by_username(conn, username)`.  The connection is modelled by the
`users` table contents; `execute`/`fetchone` of the parameterised query is
modelled as the first row whose `username` column equals the bound parameter
(SQLite text equality).  An `.error` models the `ValueError` raised by
validation, in which case no query was executed. -/
def get_user_by_username (rows : List Row) (u : PyVal) :
    Except String LookupResult :=
  match validate_username u with
  | .error e => .error e
  | .ok username =>
      .ok { queries := [{ sql := usersQuerySql, params := [username] }],
            row := rows.find? (fun r => r.username = username) }

/-! ### Specification-side definitions

These follow the wording of the specification (not the code) and are compared
with the embedded code in the theorems below. -/

/-- Spec-side description of deduplication: keep each element the first time
it is seen, preserving first-seen order. -/
def firstSeen (l : List String) : List String :=
  l.foldl (fun acc x => if x ∈ acc then acc else acc ++ [x]) []

/-- A well-formed scanner record, the shape the scanner emits: a JSON object
whose `extra` entry, when present and truthy, is an object whose `severity`
entry, when present, is a string.  (On anything else the counting loop of the
code raises instead of producing a count.) -/
def recordOk (r : Json) : Bool :=
  match r with
  | .obj kvs =>
      match List.lookup "extra" kvs with
      | none => true
      | some (.obj ekvs) =>
          (match List.lookup "severity" ekvs with
           | none => true
           | some (.str _) => true
           | some _ => false)
      | some e => jsonFalsy e
  | _ => false

/-- Spec-side severity of a record: the nested `severity` field, with an
absent field defaulting to the empty string. -/
def specSeverity (r : Json) : String :=
  match r with
  | .obj kvs =>
      match List.lookup "extra" kvs with
      | some (.obj ekvs) =>
          (match List.lookup "severity" ekvs with
           | some (.str s) => s
           | _ => "")
      | _ => ""
  | _ => ""

/-! ### Concrete environments used by the witnesses -/

/-- A scanner record with the given severity. -/
def mkSev (s : String) : Json :=
  .obj [("extra", .obj [("severity", .str s)])]

/-- The example record list of the claims: severities
`["ERROR", "error", "Info", "WARNING"]`. -/
def fourSeverities : List Json :=
  [mkSev "ERROR", mkSev "error", mkSev "Info", mkSev "WARNING"]

/-- Scanner stdout carrying `fourSeverities`. -/
def sevJson : String :=
  "\x7b\"results\": [" ++
  "\x7b\"extra\": \x7b\"severity\": \"ERROR\"\x7d\x7d, " ++
  "\x7b\"extra\": \x7b\"severity\": \"error\"\x7d\x7d, " ++
  "\x7b\"extra\": \x7b\"severity\": \"Info\"\x7d\x7d, " ++
  "\x7b\"extra\": \x7b\"severity\": \"WARNING\"\x7d\x7d]\x7d"

/-- An empty filesystem. -/
def fs0 : FS :=
  { isFile := fun _ => false, isDir := fun _ => false,
    rglobDfy := fun _ => [], rglob_dfy := fun _ _ h => nomatch h }

/-- A filesystem holding exactly the file `check.dfy`. -/
def fs1 : FS :=
  { isFile := fun s => s = "check.dfy", isDir := fun _ => false,
    rglobDfy := fun _ => [], rglob_dfy := fun _ _ h => nomatch h }

/-- A filesystem with a directory `specs/dafny` holding two `.dfy` files
(reported by the glob out of order), plus a stray non-`.dfy` file `x.txt`. -/
def fs2 : FS :=
  { isFile := fun s => s = "x.txt", isDir := fun s => s = "specs/dafny",
    rglobDfy := fun d =>
      if d = "specs/dafny" then ["specs/dafny/b.dfy", "specs/dafny/a.dfy"] else [],
    rglob_dfy := by
      intro d f h
      by_cases hd : d = "specs/dafny"
      · simp [hd] at h
        rcases h with rfl | rfl
        · exact ⟨"specs/dafny/b".data, rfl⟩
        · exact ⟨"specs/dafny/a".data, rfl⟩
      · simp only [if_neg hd] at h
        exact absurd h (List.not_mem_nil f) }

/-- A filesystem whose directory holds `.dfy` files in nested subdirectories
on which pathlib order and whole-string code-point order disagree: pathlib
(and hence the program) puts `specs/dafny/a/c.dfy` first, string order puts
`specs/dafny/a.b/x.dfy` first. -/
def fsSortCex : FS :=
  { isFile := fun _ => false, isDir := fun s => s = "specs/dafny",
    rglobDfy := fun d =>
      if d = "specs/dafny" then ["specs/dafny/a/c.dfy", "specs/dafny/a.b/x.dfy"]
      else [],
    rglob_dfy := by
      intro d f h
      by_cases hd : d = "specs/dafny"
      · simp [hd] at h
        rcases h with rfl | rfl
        · exact ⟨"specs/dafny/a/c".data, rfl⟩
        · exact ⟨"specs/dafny/a.b/x".data, rfl⟩
      · simp [hd] at h }

/-- A `run_dafny` environment in which target discovery comes up empty. -/
def dEnvSkip : DafnyEnv :=
  { fs := fs0, dafnyOnPath := true, verProc := ⟨0, "", ""⟩,
    verifyProc := fun _ => ⟨0, "", ""⟩ }

/-- A `run_dafny` environment with one target file and no `dafny` binary. -/
def dEnvNoDafny : DafnyEnv :=
  { fs := fs1, dafnyOnPath := false, verProc := ⟨0, "", ""⟩,
    verifyProc := fun _ => ⟨0, "", ""⟩ }

/-- A gate environment: no Dafny targets, scanner reporting zero findings. -/
def gEnvPass : GateEnv :=
  { dafny := dEnvSkip,
    semgrep := { scan := some ⟨0, "\x7b\"results\": []\x7d", ""⟩ } }

/-! ### Helper lemmas -/

theorem dedupLoop_sublist (l : List String) : ∀ seen, (dedupLoop seen l).Sublist l := by
  induction l with
  | nil => intro seen; simp [dedupLoop]
  | cons f fsr ih =>
      intro seen
      by_cases h : f ∈ seen
      · rw [dedupLoop, if_pos h]
        exact (ih seen).cons f
      · rw [dedupLoop, if_neg h]
        exact (ih (f :: seen)).cons₂ f

theorem dedupLoop_mem (l : List String) :
    ∀ seen x, x ∈ dedupLoop seen l ↔ x ∈ l ∧ x ∉ seen := by
  induction l with
  | nil => intro seen x; simp [dedupLoop]
  | cons f fsr ih =>
      intro seen x
      by_cases h : f ∈ seen
      · rw [dedupLoop, if_pos h, ih, List.mem_cons]
        constructor
        · rintro ⟨h1, h2⟩; exact ⟨Or.inr h1, h2⟩
        · rintro ⟨h1 | h1, h2⟩
          · exact absurd (h1 ▸ h) h2
          · exact ⟨h1, h2⟩
      · rw [dedupLoop, if_neg h]
        simp only [List.mem_cons, ih]
        constructor
        · rintro (rfl | ⟨h1, h2⟩)
          · exact ⟨Or.inl rfl, h⟩
          · exact ⟨Or.inr h1, fun hs => h2 (Or.inr hs)⟩
        · rintro ⟨rfl | h1, h2⟩
          · exact Or.inl rfl
          · by_cases hxf : x = f
            · exact Or.inl hxf
            · exact Or.inr ⟨h1, fun hs => hs.elim hxf h2⟩

theorem dedupLoop_nodup (l : List String) : ∀ seen, (dedupLoop seen l).Nodup := by
  induction l with
  | nil => intro seen; simp [dedupLoop]
  | cons f fsr ih =>
      intro seen
      by_cases h : f ∈ seen
      · rw [dedupLoop, if_pos h]; exact ih seen
      · rw [dedupLoop, if_neg h, List.nodup_cons]
        exact ⟨fun hf => ((dedupLoop_mem fsr (f :: seen) f).1 hf).2 (List.mem_cons_self f seen),
          ih (f :: seen)⟩

theorem dedupLoop_foldl (l : List String) :
    ∀ seen acc, (∀ x, x ∈ seen ↔ x ∈ acc) →
      acc ++ dedupLoop seen l =
        List.foldl (fun a x => if x ∈ a then a else a ++ [x]) acc l := by
  induction l with
  | nil => intro seen acc _; simp [dedupLoop]
  | cons f fsr ih =>
      intro seen acc hinv
      by_cases h : f ∈ seen
      · rw [dedupLoop, if_pos h, List.foldl_cons, if_pos ((hinv f).1 h)]
        exact ih seen acc hinv
      · rw [dedupLoop, if_neg h, List.foldl_cons, if_neg (fun hacc => h ((hinv f).2 hacc))]
        have hre : acc ++ f :: dedupLoop (f :: seen) fsr
            = (acc ++ [f]) ++ dedupLoop (f :: seen) fsr := by simp
        rw [hre]
        refine ih (f :: seen) (acc ++ [f]) ?_
        intro x
        rw [List.mem_cons, List.mem_append, List.mem_singleton, hinv x, or_comm]

theorem charListLt_irrefl : ∀ x : List Char, charListLt x x = false := by
  intro x
  induction x with
  | nil => rfl
  | cons a as ih => simp [charListLt, ih]

theorem charListLt_trans :
    ∀ x y z : List Char,
      charListLt x y = true → charListLt y z = true → charListLt x z = true := by
  intro x
  induction x with
  | nil =>
      intro y z h1 h2
      cases y with
      | nil => exact absurd h1 (by simp [charListLt])
      | cons b bs =>
          cases z with
          | nil => exact absurd h2 (by simp [charListLt])
          | cons c cs => simp [charListLt]
  | cons a as ih =>
      intro y z h1 h2
      cases y with
      | nil => exact absurd h1 (by simp [charListLt])
      | cons b bs =>
          cases z with
          | nil => exact absurd h2 (by simp [charListLt])
          | cons c cs =>
              simp only [charListLt] at h1 h2 ⊢
              by_cases hab : a = b
              · subst hab
                rw [if_pos rfl] at h1
                by_cases hac : a = c
                · subst hac
                  rw [if_pos rfl] at h2 ⊢
                  exact ih bs cs h1 h2
                · rw [if_neg hac] at h2 ⊢
                  exact h2
              · rw [if_neg hab] at h1
                by_cases hbc : b = c
                · subst hbc
                  rw [if_neg hab]
                  exact h1
                · rw [if_neg hbc] at h2
                  have hlt : a < c :=
                    lt_trans (of_decide_eq_true h1) (of_decide_eq_true h2)
                  rw [if_neg (ne_of_lt hlt)]
                  exact decide_eq_true hlt

theorem charListLt_total_of_ne :
    ∀ x y : List Char, x ≠ y → charListLt x y = true ∨ charListLt y x = true := by
  intro x
  induction x with
  | nil =>
      intro y hne
      cases y with
      | nil => exact absurd rfl hne
      | cons b bs => exact Or.inl (by simp [charListLt])
  | cons a as ih =>
      intro y hne
      cases y with
      | nil => exact Or.inr (by simp [charListLt])
      | cons b bs =>
          by_cases hab : a = b
          · subst hab
            have hne2 : as ≠ bs := fun h => hne (by rw [h])
            rcases ih bs hne2 with h | h
            · exact Or.inl (by simp [charListLt, h])
            · exact Or.inr (by simp [charListLt, h])
          · rcases lt_or_gt_of_ne hab with h | h
            · exact Or.inl (by simp [charListLt, hab, h])
            · exact Or.inr (by simp [charListLt, Ne.symm hab, h])

theorem partsLe_trans :
    ∀ x y z : List String,
      partsLe x y = true → partsLe y z = true → partsLe x z = true := by
  intro x
  induction x with
  | nil => intro y z _ _; simp [partsLe]
  | cons a as ih =>
      intro y z h1 h2
      cases y with
      | nil => exact absurd h1 (by simp [partsLe])
      | cons b bs =>
          cases z with
          | nil => exact absurd h2 (by simp [partsLe])
          | cons c cs =>
              simp only [partsLe] at h1 h2 ⊢
              by_cases hab : a = b
              · subst hab
                rw [if_pos rfl] at h1
                by_cases hac : a = c
                · subst hac
                  rw [if_pos rfl] at h2 ⊢
                  exact ih bs cs h1 h2
                · rw [if_neg hac] at h2 ⊢
                  exact h2
              · rw [if_neg hab] at h1
                by_cases hbc : b = c
                · subst hbc
                  rw [if_neg hab]
                  exact h1
                · rw [if_neg hbc] at h2
                  have hac : a ≠ c := by
                    intro he
                    subst he
                    have hcy := charListLt_trans a.data b.data a.data h1 h2
                    rw [charListLt_irrefl] at hcy
                    exact Bool.noConfusion hcy
                  rw [if_neg hac]
                  exact charListLt_trans a.data b.data c.data h1 h2

theorem partsLe_total : ∀ x y : List String, (partsLe x y || partsLe y x) = true := by
  intro x
  induction x with
  | nil => intro y; simp [partsLe]
  | cons a as ih =>
      intro y
      cases y with
      | nil => simp [partsLe]
      | cons b bs =>
          simp only [partsLe]
          by_cases hab : a = b
          · subst hab
            rw [if_pos rfl, if_pos rfl]
            exact ih bs
          · rw [if_neg hab, if_neg (Ne.symm hab)]
            have hdata : a.data ≠ b.data := fun h => hab (String.toList_inj.mp h)
            rcases charListLt_total_of_ne a.data b.data hdata with h | h
            · rw [h]; rfl
            · rw [h, Bool.or_true]

theorem sortedPaths_sorted (l : List String) :
    List.Pairwise (fun a b => pathLe a b = true) (sortedPaths l) :=
  List.sorted_mergeSort
    (fun a b c h1 h2 => partsLe_trans (pathParts a) (pathParts b) (pathParts c) h1 h2)
    (fun a b => partsLe_total (pathParts a) (pathParts b)) l

theorem sortedPaths_mem (l : List String) (x : String) : x ∈ sortedPaths l ↔ x ∈ l :=
  (List.mergeSort_perm l _).mem_iff

theorem dropWhile_head_false {α : Type} (p : α → Bool) :
    ∀ (l : List α) (d : α) (ds : List α), l.dropWhile p = d :: ds → p d = false := by
  intro l
  induction l with
  | nil => intro d ds h; simp [List.dropWhile] at h
  | cons a l2 ih =>
      intro d ds h
      rw [List.dropWhile_cons] at h
      by_cases hp : p a = true
      · rw [if_pos hp] at h; exact ih d ds h
      · rw [if_neg hp] at h
        injection h with h1 _
        subst h1
        exact Bool.eq_false_iff.mpr hp

theorem pySuffix_dfy (s : String) (h : pySuffix s = ".dfy") : ".dfy".data <:+ s.data := by
  simp only [pySuffix] at h
  set rev := (pyName s).data.reverse with hrev
  set ext := rev.takeWhile (fun c => c ≠ '.') with hext
  by_cases h1 : ext.length = rev.length
  · rw [if_pos h1] at h; exact absurd h (by decide)
  rw [if_neg h1] at h
  by_cases h2 : ext.length = 0
  · rw [if_pos h2] at h; exact absurd h (by decide)
  rw [if_neg h2] at h
  by_cases h3 : rev.length - ext.length - 1 = 0
  · rw [if_pos h3] at h; exact absurd h (by decide)
  rw [if_neg h3] at h
  have hd : ('.' :: ext.reverse) = ".dfy".data := congrArg String.data h
  have hextval : ext = ['y', 'f', 'd'] := by
    have hr : ext.reverse = ['d', 'f', 'y'] := by injection hd
    calc ext = ext.reverse.reverse := (List.reverse_reverse ext).symm
      _ = ['y', 'f', 'd'] := by rw [hr]; rfl
  have hsplit : ext ++ rev.dropWhile (fun c => c ≠ '.') = rev :=
    List.takeWhile_append_dropWhile _ _
  have hne : rev.dropWhile (fun c => c ≠ '.') ≠ [] := by
    intro hnil
    apply h1
    have := hsplit
    rw [hnil, List.append_nil] at this
    rw [this]
  obtain ⟨d, ds, hds⟩ := List.exists_cons_of_ne_nil hne
  have hdot : d = '.' := by
    have hpd := dropWhile_head_false (fun c => c ≠ '.') rev d ds hds
    simpa using hpd
  have hpref : ['y', 'f', 'd', '.'] <+: rev := by
    rw [← hsplit, hds, hextval, hdot]
    exact ⟨ds, rfl⟩
  have hrev2 : rev = s.data.reverse.takeWhile (fun c => c ≠ '/') := by
    rw [hrev]
    simp [pyName]
  have hpref2 : rev <+: s.data.reverse := by
    rw [hrev2]; exact List.takeWhile_prefix _
  have hfinal : (".dfy".data).reverse <+: s.data.reverse := hpref.trans hpref2
  exact List.reverse_prefix.1 hfinal

theorem getSeverity_recordOk (r : Json) (h : recordOk r = true) :
    getSeverity r = .ok (.str (specSeverity r)) := by
  cases r with
  | null => simp [recordOk] at h
  | bool b => simp [recordOk] at h
  | num s => simp [recordOk] at h
  | str s => simp [recordOk] at h
  | arr xs => simp [recordOk] at h
  | obj kvs =>
      cases hx : List.lookup "extra" kvs with
      | none =>
          simp [getSeverity, specSeverity, pyDictGet, hx, jsonFalsy]
      | some e =>
          cases e with
          | obj ekvs =>
              cases ekvs with
              | nil =>
                  simp [getSeverity, specSeverity, pyDictGet, hx, jsonFalsy]
              | cons kv0 ekvr =>
                  cases hs : List.lookup "severity" (kv0 :: ekvr) with
                  | none =>
                      simp [getSeverity, specSeverity, pyDictGet, hx, jsonFalsy, hs]
                  | some sv =>
                      cases sv with
                      | str s =>
                          simp [getSeverity, specSeverity, pyDictGet, hx, jsonFalsy, hs]
                      | null => simp [recordOk, hx, hs] at h
                      | bool b => simp [recordOk, hx, hs] at h
                      | num s => simp [recordOk, hx, hs] at h
                      | arr xs => simp [recordOk, hx, hs] at h
                      | obj kvs2 => simp [recordOk, hx, hs] at h
          | null =>
              simp [getSeverity, specSeverity, pyDictGet, hx, jsonFalsy]
          | bool b =>
              cases b with
              | false => simp [getSeverity, specSeverity, pyDictGet, hx, jsonFalsy]
              | true => simp [recordOk, hx, jsonFalsy] at h
          | num s =>
              have hz : jsonFalsy (.num s) = true := by simpa [recordOk, hx] using h
              simp [getSeverity, specSeverity, pyDictGet, hx, hz]
          | str s =>
              have hz : jsonFalsy (.str s) = true := by simpa [recordOk, hx] using h
              simp [getSeverity, specSeverity, pyDictGet, hx, hz]
          | arr xs =>
              have hz : jsonFalsy (.arr xs) = true := by simpa [recordOk, hx] using h
              simp [getSeverity, specSeverity, pyDictGet, hx, hz]

/-! ### Claim theorems -/

/-- C2: for every parsed scanner result list (of well-formed scanner records),
the blocking-finding count computed by the loop in `run_semgrep` equals the
number of records whose nested severity field, uppercased, equals `"ERROR"`
(an absent severity defaulting to the empty string). -/
theorem C2_blocking_count (results : List Json)
    (h : ∀ r ∈ results, recordOk r = true) :
    countErrors results =
      .ok (results.countP (fun r => pyUpper (specSeverity r) == "ERROR")) := by
  induction results with
  | nil => simp [countErrors]
  | cons r rs ih =>
      have hr : recordOk r = true := h r (List.mem_cons_self r rs)
      have hrs : ∀ x ∈ rs, recordOk x = true :=
        fun x hx => h x (List.mem_cons_of_mem r hx)
      rw [countErrors, getSeverity_recordOk r hr, ih hrs]
      by_cases he : pyUpper (specSeverity r) = "ERROR"
      · simp [List.countP_cons, pyStr, he]
      · simp [List.countP_cons, pyStr, he]

/-- C2 witness: on records with severities
`["ERROR", "error", "Info", "WARNING"]` the count is exactly 2. -/
theorem C2_blocking_count_witness : countErrors fourSeverities = .ok 2 := by
  rw [C2_blocking_count fourSeverities (by decide)]
  rfl

/-- C3: an empty (or whitespace-only) scanner stdout yields the failure
result `(ok = false, count = 0)`, as does non-empty stdout that is not valid
JSON; both are distinct from every success result (in particular from
`(ok = true, count = 0)`). -/
theorem C3_scanner_failure_distinct (proc : ProcResult) :
    (pyStrip proc.stdout = "" →
      run_semgrep { scan := some proc } =
        .ok { ok := false, error_count := 0, jsonArtifact := none,
              stdoutMsgs := [],
              stderrMsgs := ["[GATE] Semgrep produced no JSON output."]
                ++ (if pyStrip proc.stderr ≠ "" then [pyStrip proc.stderr] else []) }) ∧
    (pyStrip proc.stdout ≠ "" → parseJson (pyStrip proc.stdout) = none →
      run_semgrep { scan := some proc } =
        .ok { ok := false, error_count := 0,
              jsonArtifact := some (pyStrip proc.stdout),
              stdoutMsgs := [],
              stderrMsgs := ["[GATE] Semgrep output was not valid JSON."]
                ++ (if pyStrip proc.stderr ≠ "" then [pyStrip proc.stderr] else []) }) ∧
    (∀ o, run_semgrep { scan := some proc } = .ok o → o.ok = false →
      ∀ o2 : SemgrepOutcome, o2.ok = true ∧ o2.error_count = 0 → o ≠ o2) := by
  refine ⟨?_, ?_, ?_⟩
  · intro h
    simp only [run_semgrep, h]
    rfl
  · intro h1 h2
    simp only [run_semgrep, if_neg h1, h2]
  · intro o _ h2 o2 ho2 heq
    subst heq
    rw [ho2.1] at h2
    exact Bool.noConfusion h2

/-- C3 witness: whitespace-only stdout and non-JSON stdout each produce the
failure result. -/
theorem C3_scanner_failure_distinct_witness :
    run_semgrep { scan := some ⟨0, " \n ", ""⟩ } =
      .ok { ok := false, error_count := 0, jsonArtifact := none,
            stdoutMsgs := [],
            stderrMsgs := ["[GATE] Semgrep produced no JSON output."] } ∧
    run_semgrep { scan := some ⟨0, "not json", ""⟩ } =
      .ok { ok := false, error_count := 0, jsonArtifact := some "not json",
            stdoutMsgs := [],
            stderrMsgs := ["[GATE] Semgrep output was not valid JSON."] } :=
  ⟨(C3_scanner_failure_distinct ⟨0, " \n ", ""⟩).1 rfl,
   (C3_scanner_failure_distinct ⟨0, "not json", ""⟩).2.1 (by decide) rfl⟩

/-- C4: when target discovery yields no files, the verifier check succeeds
without running any subprocess and without consulting the PATH, writing only
the skip note to the log. -/
theorem C4_dafny_skip (env : DafnyEnv)
    (h : collect_dafny_files env.fs DAFNY_TARGETS = []) :
    run_dafny env =
      { ok := true, whichChecked := false, calls := [],
        log := some "[GATE] No Dafny files found. Skipped.\n",
        stdoutMsgs := ["[GATE] No Dafny files found. Skipping Dafny."],
        stderrMsgs := [] } := by
  simp only [run_dafny, h]
  rfl

/-- C4 witness: a filesystem with no matching targets. -/
theorem C4_dafny_skip_witness :
    run_dafny dEnvSkip =
      { ok := true, whichChecked := false, calls := [],
        log := some "[GATE] No Dafny files found. Skipped.\n",
        stdoutMsgs := ["[GATE] No Dafny files found. Skipping Dafny."],
        stderrMsgs := [] } :=
  C4_dafny_skip dEnvSkip rfl

set_option maxRecDepth 40000 in
/-- C5: with at least one discovered target and the verifier binary absent
from the PATH, the check fails and the persisted log is the guidance message,
which contains the installation-guidance line. -/
theorem C5_dafny_missing (env : DafnyEnv)
    (h1 : collect_dafny_files env.fs DAFNY_TARGETS ≠ [])
    (h2 : env.dafnyOnPath = false) :
    run_dafny env =
      { ok := false, whichChecked := true, calls := [],
        log := some (dafnyNotFoundMsg ++ "\n"),
        stdoutMsgs := [], stderrMsgs := [dafnyNotFoundMsg] } ∧
    ∃ pre post,
      dafnyNotFoundMsg =
        pre ++ "Install Dafny and ensure the \x27dafny\x27 command is on your PATH.\n"
          ++ post := by
  constructor
  · have hne : (collect_dafny_files env.fs DAFNY_TARGETS).isEmpty = false := by
      cases hc : collect_dafny_files env.fs DAFNY_TARGETS
      · exact absurd hc h1
      · rfl
    simp only [run_dafny, hne, h2]
    rfl
  · refine ⟨"[GATE] dafny not found on PATH.\n",
      "\nCommon install options:\n"
        ++ "- Homebrew (if available): brew install dafny\n"
        ++ "- .NET global tool: dotnet tool install -g dafny\n"
        ++ "  then add to PATH: export PATH=\"$PATH:$HOME/.dotnet/tools\"\n"
        ++ "- Download a release: https://github.com/dafny-lang/dafny/releases\n\n"
        ++ "After installing, verify with: dafny --version\n", ?_⟩
    decide

/-- C5 witness: one target file, no `dafny` binary. -/
theorem C5_dafny_missing_witness :
    run_dafny dEnvNoDafny =
      { ok := false, whichChecked := true, calls := [],
        log := some (dafnyNotFoundMsg ++ "\n"),
        stdoutMsgs := [], stderrMsgs := [dafnyNotFoundMsg] } :=
  (C5_dafny_missing dEnvNoDafny (by decide) rfl).1

/-- C6 counterexample: on a directory holding `specs/dafny/a/c.dfy` and
`specs/dafny/a.b/x.dfy`, discovery resolves the directory (and yields as its
whole output) the pathlib order, with `specs/dafny/a/c.dfy` first — a list
that is not in lexicographic order of the path strings, because as strings
`specs/dafny/a.b/x.dfy` precedes it (`.` sorts before `/`). -/
theorem C6_target_discovery_counterexample :
    resolveTarget fsSortCex "specs/dafny" =
      ["specs/dafny/a/c.dfy", "specs/dafny/a.b/x.dfy"] ∧
    collect_dafny_files fsSortCex ["specs/dafny"] =
      ["specs/dafny/a/c.dfy", "specs/dafny/a.b/x.dfy"] ∧
    ¬ List.Sorted (fun a b : String => a ≤ b)
      ["specs/dafny/a/c.dfy", "specs/dafny/a.b/x.dfy"] := by
  have hpair : List.Pairwise (fun a b => pathLe a b = true)
      ["specs/dafny/a/c.dfy", "specs/dafny/a.b/x.dfy"] := by decide
  have hres : resolveTarget fsSortCex "specs/dafny" =
      ["specs/dafny/a/c.dfy", "specs/dafny/a.b/x.dfy"] := by
    rw [resolveTarget]
    rw [if_neg (by decide), if_pos (by decide)]
    exact List.mergeSort_of_sorted hpair
  refine ⟨hres, ?_, ?_⟩
  · rw [collect_dafny_files]
    have hflat : List.flatMap ["specs/dafny"] (resolveTarget fsSortCex) =
        ["specs/dafny/a/c.dfy", "specs/dafny/a.b/x.dfy"] := by
      rw [List.flatMap_cons, List.flatMap_nil, List.append_nil, hres]
    rw [hflat]
    rfl
  · intro hsorted
    have hle : ("specs/dafny/a/c.dfy" : String) ≤ "specs/dafny/a.b/x.dfy" :=
      (List.sorted_cons.mp hsorted).1 _ (List.mem_singleton_self _)
    rw [String.le_iff_toList_le] at hle
    exact absurd hle (by decide)

/-- C6 amended: target discovery output has no duplicates and is exactly the
first-seen-order deduplication of the resolved files (so it contains each
resolved file exactly once); each directory target resolves, via the sort of
its recursive glob, to its matching files in pathlib path order —
lexicographic over the sequence of path components. -/
theorem C6_target_discovery_amended (fs : FS) (targets : List String) :
    (collect_dafny_files fs targets).Nodup ∧
    collect_dafny_files fs targets = firstSeen (targets.flatMap (resolveTarget fs)) ∧
    (∀ f, f ∈ collect_dafny_files fs targets ↔ f ∈ targets.flatMap (resolveTarget fs)) ∧
    (∀ t, fs.isDir t = true → ¬(fs.isFile t = true ∧ pySuffix t = ".dfy") →
      List.Sorted (fun a b => pathLe a b = true) (resolveTarget fs t) ∧
      ∀ f, f ∈ resolveTarget fs t ↔ f ∈ fs.rglobDfy t) := by
  refine ⟨dedupLoop_nodup _ [], ?_, ?_, ?_⟩
  · have h := dedupLoop_foldl (targets.flatMap (resolveTarget fs)) [] [] (by simp)
    simpa [firstSeen, collect_dafny_files] using h
  · intro f
    rw [collect_dafny_files, dedupLoop_mem]
    simp
  · intro t hdir hfile
    have hb : (fs.isFile t && decide (pySuffix t = ".dfy")) = false := by
      by_cases h1 : fs.isFile t = true
      · by_cases h2 : pySuffix t = ".dfy"
        · exact absurd ⟨h1, h2⟩ hfile
        · simp [h1, h2]
      · simp [Bool.eq_false_iff.mpr h1]
    rw [resolveTarget, if_neg (by rw [hb]; exact Bool.false_ne_true), if_pos hdir]
    exact ⟨sortedPaths_sorted _, fun f => sortedPaths_mem _ f⟩

/-- C6 witness: a duplicated directory target with an unsorted glob. -/
theorem C6_target_discovery_amended_witness :
    (collect_dafny_files fs2 ["specs/dafny", "specs/dafny"]).Nodup ∧
    List.Sorted (fun a b => pathLe a b = true) (resolveTarget fs2 "specs/dafny") ∧
    (∀ f, f ∈ resolveTarget fs2 "specs/dafny" ↔ f ∈ fs2.rglobDfy "specs/dafny") := by
  obtain ⟨h1, _, _, h4⟩ := C6_target_discovery_amended fs2 ["specs/dafny", "specs/dafny"]
  have h5 := h4 "specs/dafny" rfl (by decide)
  exact ⟨h1, h5.1, h5.2⟩

/-- C9: the lookup validates before any data access: `"  bob_42  "` is
accepted as the trimmed `"bob_42"` and passed as the bound parameter of the
fixed query text (every executed query has the constant SQL text and carries
the validated name only as a parameter); a trimmed value failing the
`[a-zA-Z0-9_]` length-3-to-20 pattern, or a non-string, raises the
invalid-input error, and the error result carries no executed query. -/
theorem C9_validated_lookup (rows : List Row) :
    validate_username (.pystr "  bob_42  ") = .ok "bob_42" ∧
    get_user_by_username rows (.pystr "  bob_42  ") =
      .ok { queries := [{ sql := usersQuerySql, params := ["bob_42"] }],
            row := rows.find? (fun r => r.username = "bob_42") } ∧
    (∀ u res, get_user_by_username rows u = .ok res →
      ∀ q ∈ res.queries, q.sql = usersQuerySql ∧
        ∃ name, validate_username u = .ok name ∧ q.params = [name]) ∧
    validate_username (.pystr "bob; DROP TABLE users") =
      .error "Invalid username format" ∧
    get_user_by_username rows (.pystr "bob; DROP TABLE users") =
      .error "Invalid username format" ∧
    (∀ s, USERNAME_RE_fullmatch (pyStrip s) = false →
      get_user_by_username rows (.pystr s) = .error "Invalid username format") ∧
    get_user_by_username rows .nonString = .error "Invalid type" := by
  refine ⟨rfl, rfl, ?_, rfl, rfl, ?_, rfl⟩
  · intro u res hres q hq
    cases hv : validate_username u with
    | error e =>
        rw [get_user_by_username, hv] at hres
        exact Except.noConfusion hres
    | ok name =>
        rw [get_user_by_username, hv] at hres
        obtain rfl := (Except.ok.inj hres).symm
        simp only [List.mem_singleton] at hq
        subst hq
        exact ⟨rfl, name, rfl, rfl⟩
  · intro s hs
    rw [get_user_by_username, validate_username]
    simp [hs]

/-- C9 witness: the two example inputs against a one-row table. -/
theorem C9_validated_lookup_witness :
    get_user_by_username [({ id := 1, username := "bob_42" } : Row)]
        (.pystr "  bob_42  ") =
      .ok { queries := [{ sql := usersQuerySql, params := ["bob_42"] }],
            row := some { id := 1, username := "bob_42" } } ∧
    get_user_by_username [({ id := 1, username := "bob_42" } : Row)]
        (.pystr "bob; DROP TABLE users") = .error "Invalid username format" ∧
    get_user_by_username [({ id := 1, username := "bob_42" } : Row)]
        (.pystr "x") = .error "Invalid username format" := by
  have h := C9_validated_lookup [({ id := 1, username := "bob_42" } : Row)]
  exact ⟨h.2.1.trans (by rfl), h.2.2.2.2.1, h.2.2.2.2.2.1 "x" (by decide)⟩

/-- C10: target discovery never raises: every configured path that is neither
an existing `.dfy` file nor an existing directory contributes nothing, every
output path ends in `".dfy"`, and a list of only ignored paths yields empty
output. -/
theorem C10_ignores_non_dfy (fs : FS) (targets : List String) :
    (∀ f ∈ collect_dafny_files fs targets, ".dfy".data <:+ f.data) ∧
    ((∀ t ∈ targets, ¬(fs.isFile t = true ∧ pySuffix t = ".dfy") ∧ fs.isDir t = false) →
      collect_dafny_files fs targets = []) := by
  constructor
  · intro f hf
    rw [collect_dafny_files, dedupLoop_mem] at hf
    obtain ⟨hf1, -⟩ := hf
    rw [List.mem_flatMap] at hf1
    obtain ⟨t, -, hft⟩ := hf1
    rw [resolveTarget] at hft
    by_cases hb : (fs.isFile t && decide (pySuffix t = ".dfy")) = true
    · rw [if_pos hb] at hft
      rw [List.mem_singleton] at hft
      subst hft
      have hsuf : pySuffix f = ".dfy" :=
        of_decide_eq_true (Bool.and_elim_right hb)
      exact pySuffix_dfy f hsuf
    · rw [if_neg hb] at hft
      by_cases hd : fs.isDir t = true
      · rw [if_pos hd] at hft
        exact fs.rglob_dfy t f ((sortedPaths_mem _ f).1 hft)
      · rw [if_neg hd] at hft
        exact absurd hft (List.not_mem_nil f)
  · intro h
    rw [collect_dafny_files]
    have hnil : targets.flatMap (resolveTarget fs) = [] := by
      refine List.flatMap_eq_nil_iff.mpr ?_
      intro t ht
      obtain ⟨h1, h2⟩ := h t ht
      have hb : (fs.isFile t && decide (pySuffix t = ".dfy")) = false := by
        by_cases hf1 : fs.isFile t = true
        · by_cases hf2 : pySuffix t = ".dfy"
          · exact absurd ⟨hf1, hf2⟩ h1
          · simp [hf1, hf2]
        · simp [Bool.eq_false_iff.mpr hf1]
      rw [resolveTarget, if_neg (by rw [hb]; exact Bool.false_ne_true), if_neg (by rw [h2]; exact Bool.false_ne_true)]
    rw [hnil]
    rfl

/-- C10 witness: a wrong-extension file and a nonexistent path are ignored. -/
theorem C10_ignores_non_dfy_witness :
    collect_dafny_files fs2 ["x.txt", "nope"] = [] :=
  (C10_ignores_non_dfy fs2 ["x.txt", "nope"]).2 (by decide)

/-- C1: whenever `main` returns, it prints the PASS banner to stdout and
returns 0, or prints the FAIL banner to stderr and returns 1; and it returns 0
exactly when the verifier check succeeded and the scanner check succeeded with
a blocking-finding count of zero. -/
theorem C1_gate_verdict (env : GateEnv) (r : GateRun)
    (h : gateMain env = .ok r) :
    (r.exit = 0 ∧ r.stdoutMsgs = ["[GATE] PASS"] ∧ r.stderrMsgs = [] ∨
     r.exit = 1 ∧ r.stdoutMsgs = [] ∧ r.stderrMsgs = ["[GATE] FAIL"]) ∧
    (r.exit = 0 ↔ (run_dafny env.dafny).ok = true ∧
      ∃ so, run_semgrep env.semgrep = .ok so ∧ so.ok = true ∧ so.error_count = 0) := by
  cases hs : run_semgrep env.semgrep with
  | error e =>
      simp only [gateMain, hs] at h
      exact Except.noConfusion h
  | ok so =>
      simp only [gateMain, hs] at h
      by_cases hd : (run_dafny env.dafny).ok = true
      · by_cases hok : so.ok = true
        · cases hc : so.error_count with
          | zero =>
              simp only [hd, hok, hc, Bool.not_true, Bool.false_eq_true, if_false,
                gt_iff_lt, lt_irrefl, if_true] at h
              obtain rfl := (Except.ok.inj h).symm
              refine ⟨Or.inl ⟨rfl, rfl, rfl⟩, ?_⟩
              exact ⟨fun _ => ⟨hd, so, rfl, hok, hc⟩, fun _ => rfl⟩
          | succ m =>
              simp only [hd, hok, hc, Bool.not_true, Bool.false_eq_true, if_false,
                gt_iff_lt, Nat.succ_pos, if_true] at h
              obtain rfl := (Except.ok.inj h).symm
              refine ⟨Or.inr ⟨rfl, rfl, rfl⟩, ?_⟩
              constructor
              · intro h0; exact Nat.noConfusion h0
              · rintro ⟨-, so2, hs2, -, hc2⟩
                obtain rfl := Except.ok.inj hs2
                rw [hc] at hc2
                exact Nat.noConfusion hc2
        · have hok2 : so.ok = false := Bool.not_eq_true so.ok |>.mp hok
          simp only [hd, hok2, Bool.not_false, if_true] at h
          obtain rfl := (Except.ok.inj h).symm
          refine ⟨Or.inr ⟨rfl, rfl, rfl⟩, ?_⟩
          constructor
          · intro h0; exact Nat.noConfusion h0
          · rintro ⟨-, so2, hs2, hok2b, -⟩
            obtain rfl := Except.ok.inj hs2
            rw [hok2] at hok2b
            exact Bool.noConfusion hok2b
      · have hd2 : (run_dafny env.dafny).ok = false := Bool.not_eq_true _ |>.mp hd
        simp only [hd2, Bool.not_false, if_true, ite_self] at h
        obtain rfl := (Except.ok.inj h).symm
        refine ⟨Or.inr ⟨rfl, rfl, rfl⟩, ?_⟩
        constructor
        · intro h0; exact Nat.noConfusion h0
        · rintro ⟨hd3, -⟩
          rw [hd2] at hd3
          exact Bool.noConfusion hd3

/-- C1 witness: empty Dafny targets plus a zero-finding scan give exit 0. -/
theorem C1_gate_verdict_witness :
    ({ exit := 0, stdoutMsgs := ["[GATE] PASS"], stderrMsgs := [] } : GateRun).exit = 0 ↔
      (run_dafny gEnvPass.dafny).ok = true ∧
      ∃ so, run_semgrep gEnvPass.semgrep = .ok so ∧ so.ok = true ∧ so.error_count = 0 :=
  (C1_gate_verdict gEnvPass
    { exit := 0, stdoutMsgs := ["[GATE] PASS"], stderrMsgs := [] } (by rfl)).2

/-- C7 counterexample: with the scanner binary absent, `run_semgrep` writes no
artifact at all (`jsonArtifact = none` — nothing is persisted) and the only
text emitted to the error stream is a bare not-found notice containing no
installation guidance, contradicting the claim that guidance text is emitted
to a persisted log. -/
theorem C7_scanner_missing_counterexample :
    run_semgrep { scan := none } =
      .ok { ok := false, error_count := 0, jsonArtifact := none,
            stdoutMsgs := [],
            stderrMsgs := ["[GATE] semgrep not found on PATH."] } ∧
    ¬ ("install".data <:+: "[GATE] semgrep not found on PATH.".data) ∧
    ¬ ("Install".data <:+: "[GATE] semgrep not found on PATH.".data) :=
  ⟨rfl, by decide, by decide⟩

/-- C7 amended: with the scanner binary absent, `run_semgrep` returns the
failure result `(ok = false, count = 0)` instead of crashing and prints the
not-found notice to the error stream; nothing is written to a persisted log
and no installation guidance is emitted. -/
theorem C7_scanner_missing_amended :
    run_semgrep { scan := none } =
      .ok { ok := false, error_count := 0, jsonArtifact := none,
            stdoutMsgs := [],
            stderrMsgs := ["[GATE] semgrep not found on PATH."] } := rfl

/-- C8 counterexample: `"5"` parses as JSON, yet the scanner check does not
return `(True, error_count)` — it raises `AttributeError` (the parsed value
is not a dict), so the claim's consequent fails. -/
theorem C8_exit_code_counterexample :
    (parseJson (pyStrip "5")).isSome = true ∧
    run_semgrep { scan := some ⟨0, "5", ""⟩ } =
      .error "AttributeError: no attribute get" :=
  ⟨rfl, rfl⟩

/-- C8 amended: the scanner subprocess exit code never by itself changes the
returned verdict — `(ok, error_count)` and the persisted artifact and
findings line are identical for any two exit codes, with stderr surfaced only
as diagnostics — and whenever stdout parses as a JSON object whose `results`
entry iterates to records on which severity counting succeeds, the result is
`(True, error_count)` regardless of the exit code. -/
theorem C8_exit_code_independent :
    (∀ (proc : ProcResult) (rc : Int),
      (run_semgrep { scan := some { proc with returncode := rc } }).map
          (fun o => (o.ok, o.error_count, o.jsonArtifact, o.stdoutMsgs)) =
        (run_semgrep { scan := some proc }).map
          (fun o => (o.ok, o.error_count, o.jsonArtifact, o.stdoutMsgs))) ∧
    (∀ (proc : ProcResult) (data rj : Json) (l : List Json) (n : Nat),
      parseJson (pyStrip proc.stdout) = some data →
      pyDictGet data "results" (Json.arr []) = .ok rj →
      pyIter rj = .ok l →
      countErrors l = .ok n →
      run_semgrep { scan := some proc } =
        .ok { ok := true, error_count := n,
              jsonArtifact := some (pyStrip proc.stdout),
              stdoutMsgs := ["[GATE] Semgrep findings: " ++ toString l.length
                ++ " total, " ++ toString n ++ " ERROR"],
              stderrMsgs :=
                if proc.returncode ≠ 0 ∧ pyStrip proc.stderr ≠ "" then
                  ["[GATE] Semgrep stderr:", pyStrip proc.stderr]
                else [] }) := by
  constructor
  · intro proc rc
    simp only [run_semgrep]
    by_cases h1 : pyStrip proc.stdout = ""
    · simp [h1]
    · simp only [if_neg h1]
      cases hp : parseJson (pyStrip proc.stdout) with
      | none => simp [hp]
      | some data =>
          cases hq : pyDictGet data "results" (Json.arr []) with
          | error e => simp [hp, hq]
          | ok rj =>
              cases hi : pyIter rj with
              | error e => simp [hp, hq, hi]
              | ok l =>
                  cases hc : countErrors l with
                  | error e => simp [hp, hq, hi, hc]
                  | ok n => simp [hp, hq, hi, hc, Except.map]
  · intro proc data rj l n h1 h2 h3 h4
    have hne : pyStrip proc.stdout ≠ "" := by
      intro h0
      rw [h0] at h1
      exact Option.noConfusion (((rfl : (none : Option Json) = parseJson "")).trans h1)
    simp only [run_semgrep, if_neg hne, h1, h2, h3, h4]

set_option maxRecDepth 200000 in
/-- C8 witness: a non-zero exit code with four findings still yields
`(True, 2)`, with stderr echoed only as diagnostics. -/
theorem C8_exit_code_independent_witness :
    run_semgrep { scan := some ⟨1, sevJson, "warning text"⟩ } =
      .ok { ok := true, error_count := 2, jsonArtifact := some sevJson,
            stdoutMsgs := ["[GATE] Semgrep findings: 4 total, 2 ERROR"],
            stderrMsgs := ["[GATE] Semgrep stderr:", "warning text"] } := by
  have h := C8_exit_code_independent.2 ⟨1, sevJson, "warning text"⟩
    (Json.obj [("results", Json.arr fourSeverities)]) (Json.arr fourSeverities)
    fourSeverities 2 (by rfl) (by rfl) (by rfl) (by rfl)
  exact h
